import Mathlib

/-!
Verification development for the DPP-Comply extraction-and-standardization
pipeline (backend/ai_processor.py, backend/services/data_validator.py,
backend/models.py).

Modelling conventions:
* Python strings are modelled as `String` / `List Char`; `.lower()` is ASCII
  lowercasing (all texts involved are ASCII).
* Python floats are modelled as `ℚ`; `round(x, 2)` is modelled as rounding to
  the nearest multiple of 1/100 with ties to even (the CPython behaviour on the
  decimal scale).  All concrete inputs evaluated below are far from tie and
  representation boundaries, so the rational model agrees with CPython there.
* The regular-expression fragments used by the source are modelled by
  hand-written matchers that reproduce Python `re` semantics (leftmost match,
  lazy/greedy backtracking) for exactly those patterns.
* The configuration default is `AI_BACKEND = "mock"` (backend/config.py), so
  the OpenAI-assisted paths are disabled and the rule-based paths modelled
  here are the executed ones.
-/

namespace DPPComply

/-! ## Character classes (Python `re` semantics, ASCII) -/

/-- Python `\s`: space, tab, newline, carriage return, vertical tab, form feed. -/
def isWs (c : Char) : Bool :=
  c = ' ' || c = '\t' || c = '\n' || c = '\r' || c = '\x0b' || c = '\x0c'

/-- The character class `[A-Za-z]`. -/
def isAlphaAZ (c : Char) : Bool :=
  ('A' ≤ c && c ≤ 'Z') || ('a' ≤ c && c ≤ 'z')

/-- The character class `[A-Za-z ]` used by the material-name group. -/
def isClassAZsp (c : Char) : Bool := isAlphaAZ c || c = ' '

/-- Python `\d` (ASCII digits). -/
def isDig (c : Char) : Bool := '0' ≤ c && c ≤ '9'

/-- Python `\w` word characters (ASCII): letters, digits, underscore. -/
def isWordC (c : Char) : Bool := isAlphaAZ c || isDig c || c = '_'

/-- ASCII lowercasing of one character, as in Python `str.lower` on ASCII text. -/
def lowerC (c : Char) : Char :=
  if 'A' ≤ c && c ≤ 'Z' then Char.ofNat (c.toNat + 32) else c

/-- ASCII uppercasing of one character. -/
def upperC (c : Char) : Char :=
  if 'a' ≤ c && c ≤ 'z' then Char.ofNat (c.toNat - 32) else c

/-- Lowercase a character list (Python `text.lower()` on ASCII text). -/
def lowerL (l : List Char) : List Char := l.map lowerC

/-! ## Substring matching (Python `x in y`) -/

/-- Does `hay` start with `needle`? -/
def startsW : List Char → List Char → Bool
  | [], _ => true
  | _ :: _, [] => false
  | a :: as, b :: bs => a = b && startsW as bs

/-- Python substring containment `needle in hay` on character lists. -/
def subL (needle : List Char) : List Char → Bool
  | [] => startsW needle []
  | c :: t => startsW needle (c :: t) || subL needle t

/-! ## Shared regex building blocks -/

/-- Drop the maximal run of `\s*` characters.  In the patterns modelled here
`\s*` is always followed by a non-whitespace requirement (`\d` or a literal),
so the maximal munch needs no backtracking. -/
def skipWsL (l : List Char) : List Char := l.dropWhile isWs

/-- Candidate splits for a greedy `\d{1,3}`: the available digit prefixes of
length up to 3, longest first (Python tries the greedy length, then
backtracks to shorter ones). -/
def tryDigits (s : List Char) : List (List Char × List Char) :=
  let k := min (s.takeWhile isDig).length 3
  (List.range k).map (fun i => (s.take (k - i), s.drop (k - i)))

/-- Numeric value of a nonempty ASCII digit string. -/
def digitsVal (d : List Char) : Nat :=
  d.foldl (fun a c => a * 10 + (c.toNat - 48)) 0

/-! ## Material pattern: `([A-Za-z ]+?)\s*(\d{1,3})\s*%` (re.findall) -/

/-- Tail of the material pattern after the name group:
`\s*(\d{1,3})\s*%`.  Returns the digit group and the rest after `%`. -/
def tail1 (s : List Char) : Option (List Char × List Char) :=
  (tryDigits (skipWsL s)).findSome? fun dr =>
    match skipWsL dr.2 with
    | '%' :: r2 => some (dr.1, r2)
    | _ => none

/-- Lazy expansion of the group `([A-Za-z ]+?)`: starting from the current
position, consume one class character at a time and after each character try
the pattern tail; the first success wins (lazy `+?`). -/
def m1go (name : List Char) : List Char → Option (List Char × List Char × List Char)
  | [] => none
  | c :: t =>
    if isClassAZsp c then
      match tail1 t with
      | some (d, r) => some (name ++ [c], d, r)
      | none => m1go (name ++ [c]) t
    else none

/-- Attempt a match of the whole material pattern anchored at the start of
`s`; returns (name group, digit group, rest after the match). -/
def match1At (s : List Char) : Option (List Char × List Char × List Char) :=
  m1go [] s

/-- Fuelled scan reproducing `re.findall`: try each start position from the
left; on a match, continue after the match. -/
def scan1 : Nat → List Char → List (List Char × List Char)
  | 0, _ => []
  | _ + 1, [] => []
  | fuel + 1, c :: t =>
    match match1At (c :: t) with
    | some (nm, d, r) => (nm, d) :: scan1 fuel r
    | none => scan1 fuel t

/-- All matches of `([A-Za-z ]+?)\s*(\d{1,3})\s*%` in `s`, as (name, digits)
pairs.  Each match consumes at least three characters, so fuel `s.length`
suffices for a complete scan. -/
def findallMat (s : List Char) : List (List Char × List Char) :=
  scan1 s.length s

/-! ## Python string methods used on material names -/

/-- Python `str.strip()`: drop leading and trailing whitespace. -/
def stripL (l : List Char) : List Char :=
  ((l.dropWhile isWs).reverse.dropWhile isWs).reverse

/-- Python `str.title()` on ASCII text: uppercase a letter that follows a
non-letter, lowercase a letter that follows a letter. -/
def titleGo (prevAlpha : Bool) : List Char → List Char
  | [] => []
  | c :: t =>
    if isAlphaAZ c then
      (if prevAlpha then lowerC c else upperC c) :: titleGo true t
    else c :: titleGo false t

/-- The name normalisation of the source `name.strip().lower().title()`. -/
def pyNormName (l : List Char) : List Char :=
  titleGo false (lowerL (stripL l))

/-! ## Rounding (Python `round(x, 2)` modelled on ℚ) -/

/-- Round a rational to the nearest integer, ties to even (the rounding used
by the Python `round`, modelled on the decimal scale). -/
def rndNE (q : ℚ) : ℤ :=
  if q - (⌊q⌋ : ℚ) < 1/2 then ⌊q⌋
  else if 1/2 < q - (⌊q⌋ : ℚ) then ⌊q⌋ + 1
  else if Even ⌊q⌋ then ⌊q⌋ else ⌊q⌋ + 1

/-- Python `round(x, 2)` modelled on ℚ. -/
def round2 (q : ℚ) : ℚ := (rndNE (q * 100) : ℚ) / 100

/-! ## Data model (backend/models.py) -/

/-- Model of `Material` from backend/models.py: one constituent of the composition.
The pydantic bound `percentage: float ∈ [0, 100]` is stated as theorems about
the produced records rather than baked into the type. -/
structure Material where
  name : String
  percentage : ℚ
deriving DecidableEq

/-- Model of `DigitalProductPassport` from backend/models.py. -/
structure DigitalProductPassport where
  product_id : String
  product_name : String
  manufacturer : String
  materials_composition : List Material
  recycled_content_percentage : ℚ
  co2_footprint_kg : ℚ
  repair_score : String
  recycling_instructions : String
  supply_chain_partners : List String
  compliance_status : String
  espr_article_references : List String
deriving DecidableEq

/-! ## Material extractor (`_extract_materials`, ai_processor.py lines 42–61) -/

/-- The keyword fallback list of `_extract_materials`. -/
def matKeywords : List String :=
  [("Cotton"), ("Polyester"), ("Nylon"), ("Wool"), ("Steel"), ("Aluminium"),
   ("Glass"), ("ABS"), ("Copper")]

/-- Step 1 of `_extract_materials`: the regex scan, name normalisation and
the `0 <= value <= 100` filter (lines 44–51). -/
def matchedMaterials (unstructured : String) : List Material :=
  (findallMat unstructured.data).filterMap fun nd =>
    if 0 ≤ (digitsVal nd.2 : ℚ) ∧ (digitsVal nd.2 : ℚ) ≤ 100 then
      some ⟨String.mk (pyNormName nd.1), (digitsVal nd.2 : ℚ)⟩
    else none

/-- Step 2 of `_extract_materials`: the keyword fallback when the regex scan
found nothing (lines 52–56). -/
def keywordMaterials (unstructured : String) : List Material :=
  matKeywords.filterMap fun kw =>
    if subL (lowerL kw.data) (lowerL unstructured.data) then
      some ⟨kw, 0⟩
    else none

/-- The local `mats` of the source after lines 44–56: the regex scan result, or
the keyword fallback when the scan found nothing. -/
def baseMaterials (unstructured : String) : List Material :=
  if (matchedMaterials unstructured).isEmpty then keywordMaterials unstructured
  else matchedMaterials unstructured

/-- The local `total` of the source (line 57). -/
def matTotal (unstructured : String) : ℚ :=
  ((baseMaterials unstructured).map Material.percentage).sum

/-- Lines 58–60: rescale every percentage to a share of 100 (rounded to two
decimal places) when the total lies in (0, ∞) ∩ [80, 120]. -/
def rescaledMaterials (unstructured : String) : List Material :=
  if 0 < matTotal unstructured ∧ 80 ≤ matTotal unstructured ∧ matTotal unstructured ≤ 120 then
    (baseMaterials unstructured).map fun m =>
      { m with percentage := round2 (m.percentage / matTotal unstructured * 100) }
  else baseMaterials unstructured

/-- Model of `_extract_materials` (lines 42–61): regex scan, keyword fallback,
sum-normalisation when the total is in [80, 120], truncation to 10. -/
def extract_materials (unstructured : String) : List Material :=
  (rescaledMaterials unstructured).take 10

/-! ## Recycled-content extractor (`_parse_recycled_content`, lines 63–71)

Pattern: `(recycled|post-consumer).{0,10}?(\d{1,3})\s*%`, case-insensitive.
The scan below runs on the lowercased text; the digit group is unaffected by
lowercasing. -/

/-- Pattern tail `(\d{1,3})\s*%` anchored at the current position: greedy
digits with backtracking, then `\s*`, then a literal percent sign. -/
def tail2 (s : List Char) : Option Nat :=
  (tryDigits s).findSome? fun dr =>
    match skipWsL dr.2 with
    | '%' :: _ => some (digitsVal dr.1)
    | _ => none

/-- The lazy gap `.{0,10}?` followed by the digit tail: try a gap of 0, then
extend one non-newline character at a time up to 10 (Python `.` does not
match a newline without `re.S`). -/
def tryGaps (g : Nat) (s : List Char) : Option Nat :=
  match tail2 s with
  | some v => some v
  | none =>
    match g, s with
    | Nat.succ g', c :: t => if c = '\n' then none else tryGaps g' t
    | _, _ => none

/-- Leftmost-match scan for the recycled-content pattern on lowercased text.
The two alternation branches start with different characters, so they never
both apply at one position. -/
def scanRec : List Char → Option Nat
  | [] => none
  | c :: t =>
    if startsW ("recycled").data (c :: t) then
      match tryGaps 10 (List.drop 8 (c :: t)) with
      | some v => some v
      | none => scanRec t
    else if startsW ("post-consumer").data (c :: t) then
      match tryGaps 10 (List.drop 13 (c :: t)) with
      | some v => some v
      | none => scanRec t
    else scanRec t

/-- Model of `_parse_recycled_content` (lines 63–71): first match of the pattern,
clamped to [0, 100]; 0.0 when there is no match. -/
def parse_recycled_content (text : String) : ℚ :=
  match scanRec (lowerL text.data) with
  | some v => max 0 (min (v : ℚ) 100)
  | none => 0

/-! ## CO2 extractor (`_parse_co2`, lines 73–86)

First preference: `(\d+(?:\.\d+)?)\s*(?:kg\s*CO2e?|CO2)`, case-insensitive.
Second preference: `\b(\d+(?:\.\d+)?)\b`.  Shortening the greedy `\d+` runs
can never rescue a failed match of either pattern (the following requirement
can never start with a digit), so maximal digit runs are faithful; the
optional fractional group is tried present-first, absent-second, matching the
greedy `(?:\.\d+)?`. -/

/-- Numeric value of a `\d+(\.\d+)?` match with integer part `d` and
fractional digits `f`. -/
def decVal (d f : List Char) : ℚ :=
  (digitsVal d : ℚ) + (digitsVal f : ℚ) / (10 : ℚ) ^ f.length

/-- The unit tail `\s*(?:kg\s*CO2e?|CO2)` on lowercased text.  The optional
`e?` constrains nothing after it, so it never affects matching. -/
def unitChk (s : List Char) : Bool :=
  let s1 := skipWsL s
  (startsW ("kg").data s1 && startsW ("co2").data (skipWsL (s1.drop 2)))
    || startsW ("co2").data s1

/-- The optional fractional group `(?:\.\d+)?` followed by the unit tail,
for integer digits `d` and remaining input `r`. -/
def co2FracVal (d r : List Char) : Option ℚ :=
  match r with
  | '.' :: r' =>
    if (r'.takeWhile isDig).isEmpty then none
    else if unitChk (r'.drop (r'.takeWhile isDig).length) then
      some (decVal d (r'.takeWhile isDig))
    else none
  | _ => none

/-- Match of the first-preference CO2 pattern anchored at the current
position (on lowercased text); returns the numeric group value.  The
fraction-present alternative is tried before the fraction-absent one. -/
def co2At (s : List Char) : Option ℚ :=
  if (s.takeWhile isDig).isEmpty then none
  else
    match co2FracVal (s.takeWhile isDig) (s.drop (s.takeWhile isDig).length) with
    | some v => some v
    | none =>
      if unitChk (s.drop (s.takeWhile isDig).length) then
        some ((digitsVal (s.takeWhile isDig) : ℚ))
      else none

/-- Leftmost-match scan for the first-preference CO2 pattern. -/
def scanCo2 : List Char → Option ℚ
  | [] => none
  | c :: t =>
    match co2At (c :: t) with
    | some v => some v
    | none => scanCo2 t

/-- Is this position (list empty, or head non-word) a `\b` boundary against a
digit on the other side? -/
def endB : List Char → Bool
  | [] => true
  | c :: _ => !isWordC c

/-- The optional fractional group followed by the trailing `\b`, for the
fallback pattern. -/
def numFracVal (d r : List Char) : Option ℚ :=
  match r with
  | '.' :: r' =>
    if (r'.takeWhile isDig).isEmpty then none
    else if endB (r'.drop (r'.takeWhile isDig).length) then
      some (decVal d (r'.takeWhile isDig))
    else none
  | _ => none

/-- Leftmost-match scan for the fallback pattern `\b(\d+(?:\.\d+)?)\b`,
carrying the previous character for the leading word boundary. -/
def scanNum (prev : Option Char) : List Char → Option ℚ
  | [] => none
  | c :: t =>
    if isDig c && (match prev with | none => true | some p => !isWordC p) then
      match numFracVal ((c :: t).takeWhile isDig)
          ((c :: t).drop ((c :: t).takeWhile isDig).length) with
      | some v => some v
      | none =>
        if endB ((c :: t).drop ((c :: t).takeWhile isDig).length) then
          some ((digitsVal ((c :: t).takeWhile isDig) : ℚ))
        else scanNum (some c) t
    else scanNum (some c) t

/-- Model of `_parse_co2` (lines 73–86): unit-anchored number first, then the first
standalone number, else 0.0. -/
def parse_co2 (text : String) : ℚ :=
  match scanCo2 (lowerL text.data) with
  | some v => v
  | none =>
    match scanNum none text.data with
    | some v => v
    | none => 0

/-! ## Reference corpus and reference extractor (lines 22–36, 88–97) -/

/-- Modelled from the spec: the corpus loader `_load_regulatory_snippets` (lines 22–34) reads regulatory text files from disk, data that is not part of the source tree;
the repository contains no `backend/data/regulatory_docs` directory, so the
`DOCS_DIR.exists()` test is false and the three built-in snippets are used. -/
def load_regulatory_snippets : List (String × String) :=
  [(("ESPR_Article_1"), ("Products must contain clear material composition and recycled content.")),
   (("ESPR_Article_2"), ("CO2 footprint reporting should be provided in kg CO2e with methodology.")),
   (("ESPR_Article_3"), ("Provide repairability and end-of-life recycling instructions."))]

/-- The module-level `RAG_STORE` (line 36). -/
def RAG_STORE : List (String × String) := load_regulatory_snippets

/-- The five fixed keywords of `_find_references` (line 91). -/
def refKeywords : List String :=
  [("material"), ("recycled"), ("co2"), ("repair"), ("recycling")]

/-- Case-insensitive `kw in text` for an (already lowercase) keyword. -/
def kwIn (kw : String) (text : String) : Bool :=
  subL kw.data (lowerL text.data)

/-- The code-point lexicographic order on strings, via their character
lists (equal to `String ≤`, but with a kernel-reducible decision
procedure). -/
def strLeData (a b : String) : Prop := a.data ≤ b.data

instance : DecidableRel strLeData :=
  fun a b => (inferInstance : Decidable (a.data ≤ b.data))

instance : IsTotal String strLeData := ⟨fun a b => le_total a.data b.data⟩

instance : IsTrans String strLeData := ⟨fun _ _ _ h1 h2 => le_trans h1 h2⟩

instance : IsAntisymm String strLeData :=
  ⟨fun _ _ h1 h2 => String.toList_inj.mp (le_antisymm h1 h2)⟩

/-- Python `sorted(list(set(refs)))`: deduplicate, then sort ascending by the
code-point lexicographic string order. -/
def dedupSort (l : List String) : List String :=
  (l.dedup).insertionSort strLeData

/-- Model of `_find_references` (lines 88–97), with the corpus as an explicit
argument (the source reads the module-level `RAG_STORE`).  The five repeated
per-keyword conditionals of the source are transcribed literally; the guard
`any(kw in text for kw)` only depends on the input text. -/
def find_references (corpus : List (String × String)) (text : String) : List String :=
  let refs := (corpus.map fun e =>
    if refKeywords.any (fun kw => kwIn kw text) then
      (if kwIn ("material") text && kwIn ("material") e.2 then [e.1] else [])
        ++ (if kwIn ("recycled") text && kwIn ("recycled") e.2 then [e.1] else [])
        ++ (if kwIn ("co2") text && kwIn ("co2") e.2 then [e.1] else [])
        ++ (if kwIn ("repair") text && kwIn ("repair") e.2 then [e.1] else [])
        ++ (if kwIn ("recycling") text && kwIn ("recycling") e.2 then [e.1] else [])
    else []).flatten
  (dedupSort refs).take 5

/-! ## Raw input model and the standardization orchestrator (lines 128–167)

The raw input is a Python dict with arbitrary keys and untyped values; it is
modelled as an association list over a small value universe covering the
shapes the pipeline inspects (strings, numbers, lists, absent/None). -/

/-- Untyped raw-input values. -/
inductive Val where
  | vStr (s : String)
  | vNum (q : ℚ)
  | vList (l : List Val)
  | vNone

/-- Python truthiness on the modelled values. -/
def truthy : Val → Bool
  | .vStr s => !(s = ("" : String))
  | .vNum q => !(q = 0)
  | .vList l => !l.isEmpty
  | .vNone => false

/-- A raw input mapping (dict with unique keys, modelled as first-match
association list lookup). -/
def Raw : Type := List (String × Val)

/-- Dict lookup, as in raw.get(k): the value at key k, or None when absent. -/
def rawGet (raw : Raw) (k : String) : Val :=
  match List.find? (fun e => e.1 = k) raw with
  | some e => e.2
  | none => .vNone

/-- Python `a or b` on values: `a` when truthy, else `b`. -/
def pyOr (a b : Val) : Val := if truthy a then a else b

/-- Python `str()` of a raw value.  The source applies it to `repair_score`
(line 160).  For strings it is the identity, the only case any claim
exercises; for the remaining shapes a simple rendering stands in for
the Python repr. -/
def pyStr : Val → String
  | .vStr s => s
  | .vNum q => toString q
  | .vList _ => ("[...]")
  | .vNone => ("None")

/-- The recognised free-text keys, in the fixed order of line 130. -/
def freeTextKeys : List String :=
  [("description"), ("notes"), ("bom_text"), ("specs"), ("details")]

/-- Lines 129–134: the newline-joined blob of all present string values of
the recognised free-text keys (non-strings are skipped by the
`isinstance(val, str)` test). -/
def blobOf (raw : Raw) : String :=
  String.intercalate ("\n")
    (freeTextKeys.filterMap fun k =>
      match rawGet raw k with
      | .vStr s => some s
      | _ => none)

/-- Coercion of a value to a pydantic `str` field (pydantic v2 rejects
non-string values for `str` fields). -/
def asStr : Val → Option String
  | .vStr s => some s
  | _ => none

/-- Coercion of each element of a list value to a string. -/
def strListOf : List Val → Option (List String)
  | [] => some []
  | .vStr s :: vs =>
    match strListOf vs with
    | some ss => some (s :: ss)
    | none => none
  | _ :: _ => none

/-- Coercion of a value to a pydantic `List[str]` field. -/
def asStrList : Val → Option (List String)
  | .vList l => strListOf l
  | _ => none

/-- Model of `standardize_product_data` (lines 128–167) on the rule-based path (the
configuration default `AI_BACKEND = "mock"` disables the OpenAI branch, so
`data` is empty at line 140).  `freshId` stands for the `str(uuid.uuid4())`
of line 146.  The final `DigitalProductPassport(**data)` validation is the
only failure point and is modelled by the field coercions. -/
def standardize_product_data (freshId : String) (raw : Raw) :
    Except String DigitalProductPassport :=
  let unstructured := blobOf raw
  let materials := extract_materials unstructured
  let recycled_pct := parse_recycled_content unstructured
  let co2 := parse_co2 unstructured
  let refs := find_references RAG_STORE
    (if unstructured = ("" : String) then ("material recycled co2 repair recycling")
     else unstructured)
  let product_id := pyOr (rawGet raw ("product_id")) (.vStr freshId)
  let product_name := pyOr (rawGet raw ("product_name"))
    (pyOr (rawGet raw ("name")) (.vStr ("Unknown Product")))
  let manufacturer := pyOr (rawGet raw ("manufacturer"))
    (pyOr (rawGet raw ("brand")) (.vStr ("Unknown Manufacturer")))
  let repair_score := pyOr (rawGet raw ("repair_score")) (.vStr ("N/A"))
  let recycling_instructions := pyOr (rawGet raw ("recycling_instructions"))
    (.vStr ("Check local guidelines; disassemble by material where possible."))
  let supply_chain := pyOr (rawGet raw ("supply_chain_partners"))
    (pyOr (rawGet raw ("suppliers")) (.vList []))
  match asStr product_id, asStr product_name, asStr manufacturer,
        asStr recycling_instructions, asStrList supply_chain with
  | some pid, some pname, some manu, some instr, some sc =>
    .ok { product_id := pid
          product_name := pname
          manufacturer := manu
          materials_composition := materials
          recycled_content_percentage := recycled_pct
          co2_footprint_kg := co2
          repair_score := pyStr repair_score
          recycling_instructions := instr
          supply_chain_partners := sc
          compliance_status := ("unknown")
          espr_article_references :=
            if refs.isEmpty then [("ESPR_Article_1"), ("ESPR_Article_2")] else refs }
  | _, _, _, _, _ => .error ("ValidationError")

/-! ## Compliance evaluator (services/data_validator.py, lines 3–32) -/

/-- The report returned by `check_espr_compliance`. -/
structure ComplianceReport where
  product_id : String
  status : String
  issues : List String
  warnings : List String
  espr_article_references : List String
deriving DecidableEq

/-- Model of `check_espr_compliance` (data_validator.py lines 3–32) on a standardized
DPP record (every field present, so each `dpp.get` reads the field).  The
appends preserve the ordering of issues and of warnings of the source. -/
def check_espr_compliance (dpp : DigitalProductPassport) : ComplianceReport :=
  let issues :=
    (if dpp.materials_composition.isEmpty then [("Missing materials composition.")] else [])
      ++ (if dpp.recycling_instructions = ("" : String) then [("Recycling instructions required.")] else [])
  let warnings :=
    (if dpp.recycled_content_percentage = 0 then [("Recycled content not specified or zero.")] else [])
      ++ (if dpp.co2_footprint_kg = 0 then [("CO2 footprint not specified.")] else [])
      ++ (if dpp.repair_score = ("N/A") ∨ dpp.repair_score = ("" : String)
          then [("Repair score not provided.")] else [])
  { product_id := dpp.product_id
    status :=
      if !issues.isEmpty then ("non_compliant")
      else if !warnings.isEmpty then ("partially_compliant")
      else ("compliant")
    issues := issues
    warnings := warnings
    espr_article_references := dpp.espr_article_references }

/-! ## Insight score (`summarize_insights`, ai_processor.py lines 200–234)

With the default configuration the OpenAI branch is disabled and the
rule-based fallback runs.  Only the numeric score (lines 230–234) is needed
by the claims; the narrative string of `_compose_summary_rules` is a
separate function that no claim inspects. -/

/-- The `score` computed by the rule-based branch of `summarize_insights`
(lines 230–234). -/
def insight_score (dpp : DigitalProductPassport) : ℚ :=
  let s1 : ℚ := 70
  let s2 := if dpp.recycled_content_percentage < 20 then s1 - 10 else s1
  let s3 := if dpp.co2_footprint_kg = 0 then s2 - 10 else s2
  let s4 := if dpp.recycling_instructions = ("" : String) then s3 - 10 else s3
  max 0 (min 100 s4)

/-! ## Assistant Q&A (`qa_on_dpp`, lines 236–271)

With the default configuration the rule-based fallback (lines 259–271) runs.
Python `str(float)` interpolation is modelled as the minimal decimal
expansion of the rational (all values this pipeline produces are terminating
decimals); `:.1f` formatting rounds to one decimal, ties to even.  No claim
inspects the rendered numbers, only the branch structure. -/

/-- Smallest exponent `k ≤ 20` with `q * 10^k` integral. -/
def decExp (q : ℚ) : Nat :=
  ((List.range 21).find? fun k => (q * (10 : ℚ) ^ k).den = 1).getD 20

/-- Decimal digit string of `n` padded to at least `k` digits. -/
def padDigits (n : Nat) (k : Nat) : String :=
  let s := toString n
  String.mk (List.replicate (k - min k s.length) '0') ++ s

/-- Python `str(float)` on the terminating decimals arising here:
minimal decimal expansion with at least one fractional digit. -/
def fmtFloat (q : ℚ) : String :=
  let k := max 1 (decExp q)
  let digits := padDigits ((q * (10 : ℚ) ^ k).num.natAbs) (k + 1)
  (if q < 0 then ("-") else ("")) ++
    (digits.data.take (digits.length - k)).asString ++ (".") ++
    (digits.data.drop (digits.length - k)).asString

/-- Python percent-style fixed one-decimal float formatting, as in the source line 270. -/
def fmtFixed1 (q : ℚ) : String :=
  let n := rndNE (q * 10)
  let m := n.natAbs
  (if n < 0 then ("-") else ("")) ++ toString (m / 10) ++ (".") ++ toString (m % 10)

/-- The materials string of line 260: the comma-joined name-and-percentage pairs, or the literal not-specified marker when the join is empty (falsy). -/
def qaMats (dpp : DigitalProductPassport) : String :=
  let j := String.intercalate (", ")
    (dpp.materials_composition.map fun m =>
      m.name ++ (" ") ++ fmtFloat m.percentage ++ ("%"))
  if j = ("" : String) then ("not specified") else j

/-- Model of `qa_on_dpp` (lines 236–271), rule-based fallback branch.  On a
standardized record every `dpp.get` reads the present field. -/
def qa_on_dpp (dpp : DigitalProductPassport) (question : String) : String :=
  let mats := qaMats dpp
  let q := lowerL question.data
  if subL ("recycle").data q then
    ("Recycling guidance: ") ++ dpp.recycling_instructions
      ++ (". Materials: ") ++ mats ++ (".")
  else if subL ("co2").data q || subL ("footprint").data q then
    ("Reported CO₂ footprint: ") ++ fmtFloat dpp.co2_footprint_kg ++ (" kg CO₂e.")
  else if subL ("materials").data q || subL ("composition").data q then
    ("Materials composition: ") ++ mats ++ (".")
  else if subL ("recycled").data q then
    ("Recycled content: ") ++ fmtFixed1 dpp.recycled_content_percentage ++ ("%.")
  else
    ("Based on the DPP, the requested detail isn\x27t explicitly reported. Consider updating supplier data.")

/-- The five keyword classes of the Q&A router, for reasoning about which
branch of `qa_on_dpp` fires. -/
inductive QaBr where
  | recycleB
  | co2B
  | materialsB
  | recycledB
  | otherB
deriving DecidableEq

/-- The branch selected by the router of `qa_on_dpp` for a question. -/
def qaBranch (question : String) : QaBr :=
  let q := lowerL question.data
  if subL ("recycle").data q then .recycleB
  else if subL ("co2").data q || subL ("footprint").data q then .co2B
  else if subL ("materials").data q || subL ("composition").data q then .materialsB
  else if subL ("recycled").data q then .recycledB
  else .otherB

/-- The answer text of each branch. -/
def qaRender (dpp : DigitalProductPassport) : QaBr → String
  | .recycleB =>
    ("Recycling guidance: ") ++ dpp.recycling_instructions
      ++ (". Materials: ") ++ qaMats dpp ++ (".")
  | .co2B =>
    ("Reported CO₂ footprint: ") ++ fmtFloat dpp.co2_footprint_kg ++ (" kg CO₂e.")
  | .materialsB =>
    ("Materials composition: ") ++ qaMats dpp ++ (".")
  | .recycledB =>
    ("Recycled content: ") ++ fmtFixed1 dpp.recycled_content_percentage ++ ("%.")
  | .otherB =>
    ("Based on the DPP, the requested detail isn\x27t explicitly reported. Consider updating supplier data.")

/-! ## Predicates and auxiliary definitions used by the claims -/

/-- The data-driven reformulation of `_find_references` proposed by the spec:
one loop over the keyword table, collecting an entry id when some keyword
occurs in both the input text and the entry text. -/
def find_references_loop (corpus : List (String × String)) (text : String) : List String :=
  let refs := (corpus.map fun e =>
    if refKeywords.any (fun kw => kwIn kw text && kwIn kw e.2) then [e.1] else []).flatten
  (dedupSort refs).take 5

/-- Value is a string or absent (the well-typedness hypothesis of the
error-handling claim for scalar keys). -/
def strOrAbsent : Val → Bool
  | .vStr _ => true
  | .vNone => true
  | _ => false

/-- Value is a string. -/
def isStrV : Val → Bool
  | .vStr _ => true
  | _ => false

/-- Value is a list of strings or absent. -/
def strListOrAbsent : Val → Bool
  | .vList l => l.all isStrV
  | .vNone => true
  | _ => false

/-- The recognised scalar keys of the standardization defaulting stage. -/
def scalarKeys : List String :=
  [("product_id"), ("product_name"), ("name"), ("manufacturer"), ("brand"),
   ("repair_score"), ("recycling_instructions")]

/-- Well-typedness of a raw input: recognised scalar keys hold strings or
are absent; the supply-chain keys hold lists of strings or are absent. -/
def wellTypedB (raw : Raw) : Bool :=
  (scalarKeys.all fun k => strOrAbsent (rawGet raw k))
    && ([("supply_chain_partners"), ("suppliers")].all fun k => strListOrAbsent (rawGet raw k))

/-- Coercibility of the final assembled record: each pydantic field coercion
of `DigitalProductPassport(**data)` succeeds. -/
def coerceOkB (freshId : String) (raw : Raw) : Bool :=
  (asStr (pyOr (rawGet raw ("product_id")) (.vStr freshId))).isSome
    && (asStr (pyOr (rawGet raw ("product_name"))
        (pyOr (rawGet raw ("name")) (.vStr ("Unknown Product"))))).isSome
    && (asStr (pyOr (rawGet raw ("manufacturer"))
        (pyOr (rawGet raw ("brand")) (.vStr ("Unknown Manufacturer"))))).isSome
    && (asStr (pyOr (rawGet raw ("recycling_instructions"))
        (.vStr ("Check local guidelines; disassemble by material where possible.")))).isSome
    && (asStrList (pyOr (rawGet raw ("supply_chain_partners"))
        (pyOr (rawGet raw ("suppliers")) (.vList [])))).isSome

/-- The structural invariants of §3 of the specification on a produced DPP:
material percentages clamped to [0, 100], at most 10 materials, recycled
content in [0, 100], nonnegative CO2, and deduplicated, sorted,
capped-at-5 article references. -/
def dppInvariants (d : DigitalProductPassport) : Prop :=
  (∀ m ∈ d.materials_composition, 0 ≤ m.percentage ∧ m.percentage ≤ 100)
    ∧ d.materials_composition.length ≤ 10
    ∧ 0 ≤ d.recycled_content_percentage ∧ d.recycled_content_percentage ≤ 100
    ∧ 0 ≤ d.co2_footprint_kg
    ∧ d.espr_article_references.Nodup
    ∧ List.Sorted (· ≤ ·) d.espr_article_references
    ∧ d.espr_article_references.length ≤ 5

/-- The issue predicate of the compliance evaluator: empty materials or
empty recycling instructions. -/
def issuePred (d : DigitalProductPassport) : Prop :=
  d.materials_composition = [] ∨ d.recycling_instructions = ("" : String)

/-- The warning predicate of the compliance evaluator: zero recycled
content, zero CO2, or missing repair score. -/
def warnPred (d : DigitalProductPassport) : Prop :=
  d.recycled_content_percentage = 0 ∨ d.co2_footprint_kg = 0
    ∨ d.repair_score = ("N/A") ∨ d.repair_score = ("" : String)

/-! ## Concrete inputs used by the scenario claims -/

/-- The textile scenario input of the specification (§8). -/
def c1raw : Raw :=
  [(("description"),
    .vStr ("Material: Cotton 60%, Polyester 40%. Recycled content ~ 25%. CO2 ~ 2.4 kg CO2e.")),
   (("notes"), .vStr ("Repair score 7/10"))]

/-- A text whose material percentages (seven 1% entries and one 76% entry,
raw sum 83 ∈ [80, 120]) make the rescaled-and-rounded percentages sum to
99.97, which is 0.03 away from 100. -/
def cxText : String := "A 1% B 1% C 1% D 1% E 1% F 1% G 1% H 76%"

/-- A raw input whose defaulted keys are present but falsy (empty strings,
empty list) rather than absent. -/
def falsyRaw : Raw :=
  [(("product_name"), .vStr ("")), (("product_id"), .vStr ("")),
   (("manufacturer"), .vStr ("")), (("recycling_instructions"), .vStr ("")),
   (("supply_chain_partners"), .vList [])]

/-- The DPP produced by the rule-based path for an empty raw input with
fresh id `"fresh-id"`. -/
def c4dpp : DigitalProductPassport :=
  { product_id := ("fresh-id")
    product_name := ("Unknown Product")
    manufacturer := ("Unknown Manufacturer")
    materials_composition := []
    recycled_content_percentage := 0
    co2_footprint_kg := 0
    repair_score := ("N/A")
    recycling_instructions := ("Check local guidelines; disassemble by material where possible.")
    supply_chain_partners := []
    compliance_status := ("unknown")
    espr_article_references := [("ESPR_Article_1"), ("ESPR_Article_2"), ("ESPR_Article_3")] }

/-- A DPP with empty materials, empty recycling instructions, zero recycled
content and zero CO2, used to exercise the compliance and insight
scenarios. -/
def scenarioDpp : DigitalProductPassport :=
  { product_id := ("p0")
    product_name := ("n0")
    manufacturer := ("m0")
    materials_composition := []
    recycled_content_percentage := 0
    co2_footprint_kg := 0
    repair_score := ("7")
    recycling_instructions := ("")
    supply_chain_partners := []
    compliance_status := ("unknown")
    espr_article_references := [] }

/-! ## Helper lemmas: rounding -/

theorem rndNE_close (q : ℚ) : |(rndNE q : ℚ) - q| ≤ 1/2 := by
  have h0 : ((⌊q⌋ : ℤ) : ℚ) ≤ q := Int.floor_le q
  have h1 : q < ((⌊q⌋ : ℤ) : ℚ) + 1 := Int.lt_floor_add_one q
  unfold rndNE
  by_cases hc : q - (⌊q⌋ : ℚ) < 1/2
  · rw [if_pos hc, abs_le]; constructor <;> linarith
  · by_cases hc2 : 1/2 < q - (⌊q⌋ : ℚ)
    · rw [if_neg hc, if_pos hc2, abs_le]; push_cast; constructor <;> linarith
    · by_cases he : Even ⌊q⌋
      · rw [if_neg hc, if_neg hc2, if_pos he, abs_le]; constructor <;> linarith
      · rw [if_neg hc, if_neg hc2, if_neg he, abs_le]; push_cast; constructor <;> linarith

theorem round2_close (q : ℚ) : |round2 q - q| ≤ 1/200 := by
  have h := rndNE_close (q * 100)
  unfold round2
  have : (rndNE (q * 100) : ℚ) / 100 - q = ((rndNE (q * 100) : ℚ) - q * 100) / 100 := by
    ring
  rw [this, abs_div]
  have h100 : |(100 : ℚ)| = 100 := by norm_num
  rw [h100]
  linarith

theorem round2_nonneg {q : ℚ} (h : 0 ≤ q) : 0 ≤ round2 q := by
  have hc := rndNE_close (q * 100)
  rw [abs_le] at hc
  have hlow : (-1 : ℚ) < (rndNE (q * 100) : ℚ) := by nlinarith
  have : (-1 : ℤ) < rndNE (q * 100) := by exact_mod_cast hlow
  have hge : (0 : ℤ) ≤ rndNE (q * 100) := by omega
  unfold round2
  apply div_nonneg _ (by norm_num)
  exact_mod_cast hge

theorem round2_le_100 {q : ℚ} (h : q ≤ 100) : round2 q ≤ 100 := by
  have hc := rndNE_close (q * 100)
  rw [abs_le] at hc
  have hup : (rndNE (q * 100) : ℚ) < 10001 := by nlinarith
  have : rndNE (q * 100) < (10001 : ℤ) := by exact_mod_cast hup
  have hle : rndNE (q * 100) ≤ (10000 : ℤ) := by omega
  unfold round2
  rw [div_le_iff₀ (by norm_num : (0:ℚ) < 100)]
  calc (rndNE (q * 100) : ℚ) ≤ 10000 := by exact_mod_cast hle
    _ = 100 * 100 := by norm_num

/-- Absolute deviation of a mapped sum: if `f` moves every element by at
most `c`, the sum moves by at most `length * c`. -/
theorem sum_map_close (f : ℚ → ℚ) (c : ℚ) (h : ∀ x, |f x - x| ≤ c) :
    ∀ l : List ℚ, |(l.map f).sum - l.sum| ≤ (l.length : ℚ) * c := by
  intro l
  induction l with
  | nil => simp
  | cons a t ih =>
    simp only [List.map_cons, List.sum_cons, List.length_cons]
    have tri : |(f a + ((t.map f).sum)) - (a + t.sum)|
        ≤ |f a - a| + |((t.map f).sum) - t.sum| := by
      have : (f a + ((t.map f).sum)) - (a + t.sum)
          = (f a - a) + (((t.map f).sum) - t.sum) := by ring
      rw [this]
      exact abs_add _ _
    have := h a
    push_cast
    linarith

/-! ## Helper lemmas: substring matching -/

/-- Matching a longer needle at a position implies matching its prefix. -/
theorem startsW_mono (bs : List Char) :
    ∀ (as h : List Char), startsW (as ++ bs) h = true → startsW as h = true := by
  intro as
  induction as with
  | nil => intro h _; rfl
  | cons a t ih =>
    intro h hm
    cases h with
    | nil => simp [startsW] at hm
    | cons b hs =>
      simp only [List.cons_append, startsW, Bool.and_eq_true] at hm ⊢
      exact ⟨hm.1, ih hs hm.2⟩

/-- Containment of a longer needle implies containment of its prefix. -/
theorem subL_mono (as bs : List Char) :
    ∀ h : List Char, subL (as ++ bs) h = true → subL as h = true := by
  intro h
  induction h with
  | nil =>
    intro hm
    simp only [subL] at hm ⊢
    cases as with
    | nil => rfl
    | cons a t => simp [startsW] at hm
  | cons c t ih =>
    intro hm
    simp only [subL, Bool.or_eq_true] at hm ⊢
    rcases hm with hm | hm
    · exact Or.inl (startsW_mono bs as _ hm)
    · exact Or.inr (ih hm)

/-! ## Helper lemmas: deduplicated sorted reference lists -/

/-- A list sorted by the data order is sorted by `String ≤`. -/
theorem sorted_le_of_sorted_data {l : List String} (h : List.Sorted strLeData l) :
    List.Sorted (· ≤ ·) l :=
  h.imp fun hab => String.le_iff_toList_le.mpr hab

theorem dedupSort_sorted (l : List String) : List.Sorted strLeData (dedupSort l) :=
  List.sorted_insertionSort strLeData l.dedup

theorem dedupSort_nodup (l : List String) : (dedupSort l).Nodup :=
  ((List.perm_insertionSort strLeData l.dedup).nodup_iff).mpr (List.nodup_dedup l)

theorem mem_dedupSort {x : String} {l : List String} : x ∈ dedupSort l ↔ x ∈ l := by
  unfold dedupSort
  rw [(List.perm_insertionSort strLeData l.dedup).mem_iff]
  exact List.mem_dedup

/-- Two lists with the same members have the same deduplicated sorted form. -/
theorem dedupSort_congr {l₁ l₂ : List String} (h : ∀ x, x ∈ l₁ ↔ x ∈ l₂) :
    dedupSort l₁ = dedupSort l₂ := by
  apply List.eq_of_perm_of_sorted _ (dedupSort_sorted l₁) (dedupSort_sorted l₂)
  rw [List.perm_ext_iff_of_nodup (dedupSort_nodup l₁) (dedupSort_nodup l₂)]
  intro a
  rw [mem_dedupSort, mem_dedupSort]
  exact h a

theorem find_references_nodup (corpus : List (String × String)) (text : String) :
    (find_references corpus text).Nodup := by
  unfold find_references
  exact (List.take_sublist 5 _).nodup (dedupSort_nodup _)

theorem find_references_sorted (corpus : List (String × String)) (text : String) :
    List.Sorted (· ≤ ·) (find_references corpus text) := by
  unfold find_references
  exact sorted_le_of_sorted_data
    (List.Pairwise.sublist (List.take_sublist 5 _) (dedupSort_sorted _))

theorem find_references_len (corpus : List (String × String)) (text : String) :
    (find_references corpus text).length ≤ 5 := by
  unfold find_references
  rw [List.length_take]
  exact min_le_left _ _

/-! ## Helper lemmas: material percentage bounds -/

theorem matchedMaterials_bounds {t : String} {m : Material}
    (h : m ∈ matchedMaterials t) : 0 ≤ m.percentage ∧ m.percentage ≤ 100 := by
  unfold matchedMaterials at h
  rw [List.mem_filterMap] at h
  obtain ⟨nd, _, hnd⟩ := h
  by_cases hb : 0 ≤ ((digitsVal nd.2 : ℚ)) ∧ (digitsVal nd.2 : ℚ) ≤ 100
  · rw [if_pos hb] at hnd
    cases hnd
    exact hb
  · rw [if_neg hb] at hnd
    cases hnd

theorem keywordMaterials_bounds {t : String} {m : Material}
    (h : m ∈ keywordMaterials t) : 0 ≤ m.percentage ∧ m.percentage ≤ 100 := by
  unfold keywordMaterials at h
  rw [List.mem_filterMap] at h
  obtain ⟨kw, _, hkw⟩ := h
  by_cases hb : subL (lowerL kw.data) (lowerL t.data) = true
  · rw [if_pos hb] at hkw
    cases hkw
    norm_num
  · rw [if_neg hb] at hkw
    cases hkw

theorem baseMaterials_bounds {t : String} {m : Material}
    (h : m ∈ baseMaterials t) : 0 ≤ m.percentage ∧ m.percentage ≤ 100 := by
  unfold baseMaterials at h
  by_cases hc : (matchedMaterials t).isEmpty = true
  · rw [if_pos hc] at h
    exact keywordMaterials_bounds h
  · rw [if_neg hc] at h
    exact matchedMaterials_bounds h

theorem rescaledMaterials_bounds {t : String} {m : Material}
    (h : m ∈ rescaledMaterials t) : 0 ≤ m.percentage ∧ m.percentage ≤ 100 := by
  unfold rescaledMaterials at h
  by_cases hc : 0 < matTotal t ∧ 80 ≤ matTotal t ∧ matTotal t ≤ 120
  · rw [if_pos hc] at h
    rw [List.mem_map] at h
    obtain ⟨m0, hm0, hm⟩ := h
    obtain ⟨h0, h1⟩ := baseMaterials_bounds hm0
    have hT : 0 < matTotal t := hc.1
    have hple : m0.percentage ≤ matTotal t := by
      apply List.single_le_sum (l := (baseMaterials t).map Material.percentage)
      · intro x hx
        rw [List.mem_map] at hx
        obtain ⟨y, hy, hyx⟩ := hx
        subst hyx
        exact (baseMaterials_bounds hy).1
      · exact List.mem_map_of_mem Material.percentage hm0
    have hx0 : 0 ≤ m0.percentage / matTotal t * 100 := by positivity
    have hx1 : m0.percentage / matTotal t * 100 ≤ 100 := by
      have : m0.percentage / matTotal t ≤ 1 := (div_le_one hT).mpr hple
      linarith
    subst hm
    exact ⟨round2_nonneg hx0, round2_le_100 hx1⟩
  · rw [if_neg hc] at h
    exact baseMaterials_bounds h

theorem extract_materials_bounds {t : String} {m : Material}
    (h : m ∈ extract_materials t) : 0 ≤ m.percentage ∧ m.percentage ≤ 100 :=
  rescaledMaterials_bounds (List.mem_of_mem_take h)

theorem extract_materials_len (t : String) : (extract_materials t).length ≤ 10 := by
  unfold extract_materials
  rw [List.length_take]
  exact min_le_left _ _

/-- When the raw matched percentages sum to a value in [80, 120] and at most
10 materials matched, the rescaled-and-rounded percentages of the returned
list sum to 100 up to the accumulated rounding error, at most 1/20. -/
theorem extract_sum_close (t : String)
    (h80 : 80 ≤ ((matchedMaterials t).map Material.percentage).sum)
    (h120 : ((matchedMaterials t).map Material.percentage).sum ≤ 120)
    (hlen : (matchedMaterials t).length ≤ 10) :
    |((extract_materials t).map Material.percentage).sum - 100| ≤ 1/20 := by
  have hS0 : (0 : ℚ) < ((matchedMaterials t).map Material.percentage).sum := by linarith
  have hne : (matchedMaterials t).isEmpty = false := by
    cases hmt : matchedMaterials t with
    | nil => rw [hmt] at hS0; simp at hS0
    | cons a l => rfl
  have hbase : baseMaterials t = matchedMaterials t := by
    unfold baseMaterials
    rw [hne]
    simp
  have htot : matTotal t = ((matchedMaterials t).map Material.percentage).sum := by
    unfold matTotal
    rw [hbase]
  have hcond : 0 < matTotal t ∧ 80 ≤ matTotal t ∧ matTotal t ≤ 120 := by
    rw [htot]; exact ⟨hS0, h80, h120⟩
  set S := ((matchedMaterials t).map Material.percentage).sum with hSdef
  have hresc : rescaledMaterials t
      = (matchedMaterials t).map fun m =>
          { m with percentage := round2 (m.percentage / S * 100) } := by
    unfold rescaledMaterials
    rw [if_pos hcond, hbase, htot]
  have hlenmap : ((matchedMaterials t).map fun m =>
      ({ m with percentage := round2 (m.percentage / S * 100) } : Material)).length ≤ 10 := by
    rw [List.length_map]; exact hlen
  have hext : extract_materials t
      = (matchedMaterials t).map fun m =>
          { m with percentage := round2 (m.percentage / S * 100) } := by
    unfold extract_materials
    rw [hresc]
    exact List.take_of_length_le hlenmap
  have hpct : (extract_materials t).map Material.percentage
      = (((matchedMaterials t).map Material.percentage).map
          fun p => p / S * 100).map round2 := by
    rw [hext]
    simp [List.map_map, Function.comp]
  have hsum_mid : (((matchedMaterials t).map Material.percentage).map
      fun p => p / S * 100).sum = 100 := by
    have hfun : (fun p : ℚ => p / S * 100) = fun p : ℚ => p * (100 / S) := by
      funext p; ring
    rw [hfun, List.sum_map_mul_right]
    rw [List.map_id']
    field_simp
  have hclose := sum_map_close round2 (1/200) round2_close
    (((matchedMaterials t).map Material.percentage).map fun p => p / S * 100)
  rw [hsum_mid] at hclose
  have hlen2 : ((((matchedMaterials t).map Material.percentage).map
      fun p => p / S * 100).length : ℚ) ≤ 10 := by
    rw [List.length_map, List.length_map]
    exact_mod_cast hlen
  rw [hpct]
  have : ((((matchedMaterials t).map Material.percentage).map
      fun p => p / S * 100).length : ℚ) * (1/200) ≤ 10 * (1/200) := by
    apply mul_le_mul_of_nonneg_right hlen2
    norm_num
  calc |((((matchedMaterials t).map Material.percentage).map
        fun p => p / S * 100).map round2).sum - 100|
      ≤ ((((matchedMaterials t).map Material.percentage).map
        fun p => p / S * 100).length : ℚ) * (1/200) := hclose
    _ ≤ 10 * (1/200) := this
    _ = 1/20 := by norm_num

/-! ## Helper lemmas: numeric field bounds -/

theorem parse_recycled_bounds (t : String) :
    0 ≤ parse_recycled_content t ∧ parse_recycled_content t ≤ 100 := by
  unfold parse_recycled_content
  cases scanRec (lowerL t.data) with
  | none => norm_num
  | some v =>
    constructor
    · exact le_max_left _ _
    · exact max_le (by norm_num) (min_le_right _ _)

theorem decVal_nonneg (d f : List Char) : 0 ≤ decVal d f := by
  unfold decVal
  positivity

theorem co2FracVal_nonneg {d r : List Char} {v : ℚ} (h : co2FracVal d r = some v) :
    0 ≤ v := by
  unfold co2FracVal at h
  split at h
  · rename_i r'
    by_cases h1 : (r'.takeWhile isDig).isEmpty = true
    · rw [if_pos h1] at h
      cases h
    · rw [if_neg h1] at h
      by_cases h2 : unitChk (r'.drop (r'.takeWhile isDig).length) = true
      · rw [if_pos h2] at h
        cases h
        exact decVal_nonneg _ _
      · rw [if_neg h2] at h
        cases h
  · cases h

theorem co2At_nonneg {s : List Char} {v : ℚ} (h : co2At s = some v) : 0 ≤ v := by
  unfold co2At at h
  by_cases he : (s.takeWhile isDig).isEmpty = true
  · rw [if_pos he] at h
    cases h
  · rw [if_neg he] at h
    cases hw : co2FracVal (s.takeWhile isDig) (s.drop (s.takeWhile isDig).length) with
    | some w =>
      rw [hw] at h
      cases h
      exact co2FracVal_nonneg hw
    | none =>
      rw [hw] at h
      by_cases hu : unitChk (s.drop (s.takeWhile isDig).length) = true
      · rw [if_pos hu] at h
        cases h
        positivity
      · rw [if_neg hu] at h
        cases h

theorem scanCo2_nonneg : ∀ {l : List Char} {v : ℚ}, scanCo2 l = some v → 0 ≤ v := by
  intro l
  induction l with
  | nil => intro v h; cases h
  | cons c t ih =>
    intro v h
    unfold scanCo2 at h
    cases hw : co2At (c :: t) with
    | some w =>
      rw [hw] at h
      cases h
      exact co2At_nonneg hw
    | none =>
      rw [hw] at h
      exact ih h

theorem numFracVal_nonneg {d r : List Char} {v : ℚ} (h : numFracVal d r = some v) :
    0 ≤ v := by
  unfold numFracVal at h
  split at h
  · rename_i r'
    by_cases h1 : (r'.takeWhile isDig).isEmpty = true
    · rw [if_pos h1] at h
      cases h
    · rw [if_neg h1] at h
      by_cases h2 : endB (r'.drop (r'.takeWhile isDig).length) = true
      · rw [if_pos h2] at h
        cases h
        exact decVal_nonneg _ _
      · rw [if_neg h2] at h
        cases h
  · cases h

theorem scanNum_cons_nonneg {c : Char} {t : List Char} {v : ℚ} (b : Bool)
    (ih : ∀ {prev : Option Char} {v : ℚ}, scanNum prev t = some v → 0 ≤ v)
    (h : (if (isDig c && b) = true then
      match numFracVal ((c :: t).takeWhile isDig)
          ((c :: t).drop ((c :: t).takeWhile isDig).length) with
      | some w => some w
      | none =>
        if endB ((c :: t).drop ((c :: t).takeWhile isDig).length) = true then
          some ((digitsVal ((c :: t).takeWhile isDig) : ℚ))
        else scanNum (some c) t
      else scanNum (some c) t) = some v) : 0 ≤ v := by
  by_cases hb : (isDig c && b) = true
  · rw [if_pos hb] at h
    cases hw : numFracVal ((c :: t).takeWhile isDig)
        ((c :: t).drop ((c :: t).takeWhile isDig).length) with
    | some w =>
      rw [hw] at h
      cases h
      exact numFracVal_nonneg hw
    | none =>
      rw [hw] at h
      by_cases he : endB ((c :: t).drop ((c :: t).takeWhile isDig).length) = true
      · rw [if_pos he] at h
        cases h
        positivity
      · rw [if_neg he] at h
        exact ih h
  · rw [if_neg hb] at h
    exact ih h

theorem scanNum_nonneg : ∀ {l : List Char} {prev : Option Char} {v : ℚ},
    scanNum prev l = some v → 0 ≤ v := by
  intro l
  induction l with
  | nil => intro prev v h; cases h
  | cons c t ih =>
    intro prev v h
    unfold scanNum at h
    cases prev with
    | none => exact scanNum_cons_nonneg true (fun {p v} => ih) h
    | some p => exact scanNum_cons_nonneg (!isWordC p) (fun {p v} => ih) h

theorem parse_co2_nonneg (t : String) : 0 ≤ parse_co2 t := by
  unfold parse_co2
  cases hv : scanCo2 (lowerL t.data) with
  | some v => exact scanCo2_nonneg hv
  | none =>
    cases hw : scanNum none t.data with
    | some w => exact scanNum_nonneg hw
    | none => norm_num

/-! ## Helper lemmas: the standardization orchestrator -/

theorem standardize_ok_shape {fid : String} {raw : Raw} {dpp : DigitalProductPassport}
    (h : standardize_product_data fid raw = .ok dpp) :
    dpp.materials_composition = extract_materials (blobOf raw)
    ∧ dpp.recycled_content_percentage = parse_recycled_content (blobOf raw)
    ∧ dpp.co2_footprint_kg = parse_co2 (blobOf raw)
    ∧ (dpp.espr_article_references =
        (if (find_references RAG_STORE (if blobOf raw = ("" : String)
              then ("material recycled co2 repair recycling") else blobOf raw)).isEmpty
         then [("ESPR_Article_1"), ("ESPR_Article_2")]
         else find_references RAG_STORE (if blobOf raw = ("" : String)
              then ("material recycled co2 repair recycling") else blobOf raw)))
    ∧ (asStr (pyOr (rawGet raw ("product_id")) (.vStr fid)) = some dpp.product_id)
    ∧ (asStr (pyOr (rawGet raw ("product_name"))
        (pyOr (rawGet raw ("name")) (.vStr ("Unknown Product")))) = some dpp.product_name)
    ∧ (asStr (pyOr (rawGet raw ("manufacturer"))
        (pyOr (rawGet raw ("brand")) (.vStr ("Unknown Manufacturer")))) = some dpp.manufacturer)
    ∧ (asStr (pyOr (rawGet raw ("recycling_instructions"))
        (.vStr ("Check local guidelines; disassemble by material where possible.")))
        = some dpp.recycling_instructions)
    ∧ (asStrList (pyOr (rawGet raw ("supply_chain_partners"))
        (pyOr (rawGet raw ("suppliers")) (.vList [])))
        = some dpp.supply_chain_partners)
    ∧ dpp.compliance_status = ("unknown") := by
  simp only [standardize_product_data] at h
  split at h
  · rename_i pid pname manu instr sc hpid hpname hmanu hinstr hsc
    cases h
    exact ⟨rfl, rfl, rfl, rfl, hpid, hpname, hmanu, hinstr, hsc, rfl⟩
  · cases h

theorem standardize_ok_of_coerceOk {fid : String} {raw : Raw}
    (h : coerceOkB fid raw = true) :
    ∃ dpp, standardize_product_data fid raw = .ok dpp := by
  unfold coerceOkB at h
  simp only [Bool.and_eq_true, Option.isSome_iff_exists] at h
  obtain ⟨⟨⟨⟨⟨pid, hpid⟩, pname, hpname⟩, manu, hmanu⟩, instr, hinstr⟩, sc, hsc⟩ := h
  cases he : standardize_product_data fid raw with
  | ok d => exact ⟨d, rfl⟩
  | error e =>
    simp only [standardize_product_data, hpid, hpname, hmanu, hinstr, hsc] at he
    cases he

theorem isStrV_exists {v : Val} (h : isStrV v = true) : ∃ s, v = .vStr s := by
  cases v with
  | vStr s => exact ⟨s, rfl⟩
  | vNum q => cases h
  | vList l => cases h
  | vNone => cases h

theorem pyOr_str_shape {v : Val} (d : String) (h : strOrAbsent v = true) :
    ∃ s, pyOr v (.vStr d) = .vStr s := by
  cases v with
  | vStr s =>
    unfold pyOr truthy
    by_cases hs : s = ("" : String)
    · rw [hs]; simp
    · simp [hs]
  | vNum q => cases h
  | vList l => cases h
  | vNone => exact ⟨d, rfl⟩

theorem asStr_pyOr_isSome {v : Val} (d : String) (h : strOrAbsent v = true) :
    (asStr (pyOr v (.vStr d))).isSome = true := by
  obtain ⟨s, hs⟩ := pyOr_str_shape d h
  rw [hs]
  rfl

theorem asStr_pyOr2_isSome {v1 v2 : Val} (d : String)
    (h1 : strOrAbsent v1 = true) (h2 : strOrAbsent v2 = true) :
    (asStr (pyOr v1 (pyOr v2 (.vStr d)))).isSome = true := by
  obtain ⟨s, hs⟩ := pyOr_str_shape d h2
  rw [hs]
  exact asStr_pyOr_isSome s h1

theorem strListOf_of_all {l : List Val} (h : l.all isStrV = true) :
    (strListOf l).isSome = true := by
  induction l with
  | nil => rfl
  | cons v vs ih =>
    simp only [List.all_cons, Bool.and_eq_true] at h
    obtain ⟨s, rfl⟩ := isStrV_exists h.1
    have hvs := ih h.2
    rw [Option.isSome_iff_exists] at hvs
    obtain ⟨ss, hss⟩ := hvs
    unfold strListOf
    rw [hss]
    rfl

theorem asStrList_pyOr2_isSome {v1 v2 : Val}
    (h1 : strListOrAbsent v1 = true) (h2 : strListOrAbsent v2 = true) :
    (asStrList (pyOr v1 (pyOr v2 (.vList [])))).isSome = true := by
  have hlist : ∀ v : Val, strListOrAbsent v = true →
      ∀ w : Val, (asStrList w).isSome = true → (asStrList (pyOr v w)).isSome = true := by
    intro v hv w hw
    cases v with
    | vStr s => cases hv
    | vNum q => cases hv
    | vList l =>
      unfold pyOr truthy
      by_cases hl : l.isEmpty = true
      · simp [hl, hw]
      · simp only [hl, Bool.not_false, if_true]
        exact strListOf_of_all hv
    | vNone => exact hw
  exact hlist v1 h1 _ (hlist v2 h2 (.vList []) rfl)

theorem coerceOk_of_wellTyped {raw : Raw} (fid : String) (h : wellTypedB raw = true) :
    coerceOkB fid raw = true := by
  unfold wellTypedB scalarKeys at h
  simp only [List.all_cons, List.all_nil, Bool.and_eq_true, Bool.and_true] at h
  obtain ⟨⟨h1, h2, h3, h4, h5, h6, h7⟩, h8, h9⟩ := h
  unfold coerceOkB
  simp only [Bool.and_eq_true]
  exact ⟨⟨⟨⟨asStr_pyOr_isSome fid h1, asStr_pyOr2_isSome _ h2 h3⟩,
    asStr_pyOr2_isSome _ h4 h5⟩, asStr_pyOr_isSome _ h7⟩,
    asStrList_pyOr2_isSome h8 h9⟩

theorem coerceOk_of_ok {fid : String} {raw : Raw} {dpp : DigitalProductPassport}
    (h : standardize_product_data fid raw = .ok dpp) : coerceOkB fid raw = true := by
  obtain ⟨_, _, _, _, h5, h6, h7, h8, h9, _⟩ := standardize_ok_shape h
  unfold coerceOkB
  simp only [Bool.and_eq_true]
  rw [h5, h6, h7, h8, h9]
  exact ⟨⟨⟨⟨rfl, rfl⟩, rfl⟩, rfl⟩, rfl⟩

theorem standardize_error_iff (fid : String) (raw : Raw) :
    (∃ e, standardize_product_data fid raw = .error e) ↔ coerceOkB fid raw = false := by
  constructor
  · rintro ⟨e, he⟩
    cases hc : coerceOkB fid raw with
    | false => rfl
    | true =>
      obtain ⟨dpp, hdpp⟩ := standardize_ok_of_coerceOk hc
      rw [he] at hdpp
      cases hdpp
  · intro hc
    cases hok : standardize_product_data fid raw with
    | error e => exact ⟨e, rfl⟩
    | ok d =>
      rw [coerceOk_of_ok hok] at hc
      cases hc

/-- The reference list produced by the defaulting stage (extracted
references, or the two-entry fallback) is always deduplicated, sorted and
capped at 5. -/
theorem refsOrFallback_props (refs : List String) (hnd : refs.Nodup)
    (hs : List.Sorted (· ≤ ·) refs) (hl : refs.length ≤ 5) :
    (if refs.isEmpty then [("ESPR_Article_1"), ("ESPR_Article_2")] else refs).Nodup
    ∧ List.Sorted (· ≤ ·)
        (if refs.isEmpty then [("ESPR_Article_1"), ("ESPR_Article_2")] else refs)
    ∧ (if refs.isEmpty then [("ESPR_Article_1"), ("ESPR_Article_2")] else refs).length ≤ 5 := by
  split
  · refine ⟨by decide, ?_, by decide⟩
    exact sorted_le_of_sorted_data (by decide)
  · exact ⟨hnd, hs, hl⟩

theorem standardize_ok_invariants {fid : String} {raw : Raw} {dpp : DigitalProductPassport}
    (h : standardize_product_data fid raw = .ok dpp) : dppInvariants dpp := by
  obtain ⟨hm, hr, hc, hrefs, _⟩ := standardize_ok_shape h
  have hrefp : dpp.espr_article_references.Nodup
      ∧ List.Sorted (· ≤ ·) dpp.espr_article_references
      ∧ dpp.espr_article_references.length ≤ 5 := by
    rw [hrefs]
    exact refsOrFallback_props _ (find_references_nodup _ _)
      (find_references_sorted _ _) (find_references_len _ _)
  refine ⟨?_, ?_, ?_, ?_, ?_, hrefp.1, hrefp.2.1, hrefp.2.2⟩
  · rw [hm]; intro m hmm; exact extract_materials_bounds hmm
  · rw [hm]; exact extract_materials_len _
  · rw [hr]; exact (parse_recycled_bounds _).1
  · rw [hr]; exact (parse_recycled_bounds _).2
  · rw [hc]; exact parse_co2_nonneg _

/-- The value selected by an `or`-chain against a nonempty string default is
never the empty string when the coercion succeeds. -/
theorem asStr_pyOr_ne {v : Val} {d s : String} (hd : ¬ d = ("" : String))
    (h : asStr (pyOr v (.vStr d)) = some s) : ¬ s = ("" : String) := by
  cases v with
  | vStr s0 =>
    by_cases h0 : s0 = ("" : String)
    · subst h0
      simp [pyOr, truthy, asStr] at h
      subst h
      exact hd
    · simp [pyOr, truthy, asStr, h0] at h
      subst h
      exact h0
  | vNum q =>
    by_cases h0 : q = 0
    · simp [pyOr, truthy, asStr, h0] at h
      subst h
      exact hd
    · simp [pyOr, truthy, asStr, h0] at h
  | vList l =>
    by_cases h0 : l.isEmpty = true
    · simp [pyOr, truthy, asStr, h0] at h
      subst h
      exact hd
    · simp [pyOr, truthy, asStr, h0] at h
  | vNone =>
    simp [pyOr, truthy, asStr] at h
    subst h
    exact hd

/-- A DPP produced by the rule-based path never has empty recycling
instructions. -/
theorem standardize_ok_instructions_ne {fid : String} {raw : Raw}
    {dpp : DigitalProductPassport}
    (h : standardize_product_data fid raw = .ok dpp) :
    ¬ dpp.recycling_instructions = ("" : String) := by
  obtain ⟨_, _, _, _, _, _, _, hinstr, _⟩ := standardize_ok_shape h
  exact asStr_pyOr_ne (by decide) hinstr

/-- Python `or` ignores a falsy left operand. -/
theorem pyOr_falsy {v : Val} (d : Val) (h : truthy v = false) : pyOr v d = d := by
  unfold pyOr
  rw [h]
  rfl

/-- An `Except` value whose option view is `some` is that success value. -/
theorem except_ok_of_toOption {α β : Type} {e : Except α β} {d : β}
    (h : e.toOption = some d) : e = .ok d := by
  cases e with
  | ok a =>
    simp only [Except.toOption, Option.some.injEq] at h
    rw [h]
  | error a => simp [Except.toOption] at h

/-! ## Claim theorems

Concrete evaluations below go through the kernel; the arithmetic of `ℚ` is
made reducible for them. -/

section ConcreteEvaluation

attribute [local semireducible] Rat.add Rat.mul Rat.inv Rat.sub

/-- Claim C1, counterexample: on the textile scenario input the rule-based
pipeline does NOT produce `recycled_content_percentage = 25`: the pattern
`(recycled|post-consumer).{0,10}?(\d{1,3})\s*%` allows at most 10 characters
between the keyword and the number, but in `"Recycled content ~ 25%"` the gap
`" content ~ "` is 11 characters, so no match is found and the field is 0. -/
theorem c1_counterexample :
    (standardize_product_data ("pid-1") c1raw).toOption.map
      DigitalProductPassport.recycled_content_percentage ≠ some 25 := by
  decide

/-- Claim C1 (amended): on the textile scenario input the rule-based
pipeline produces Cotton 60% and Polyester 40% (summing to 100), together
with a stray empty-named 25% material picked up from `"~ 25%"`;
`co2_footprint_kg` is 2.4; but `recycled_content_percentage` is 0, not 25,
because the 10-character window of the recycled-content pattern is one
character too short for `"Recycled content ~ 25%"`. -/
theorem c1_amended :
    (standardize_product_data ("pid-1") c1raw).toOption = some
      { product_id := ("pid-1")
        product_name := ("Unknown Product")
        manufacturer := ("Unknown Manufacturer")
        materials_composition := [⟨("Cotton"), 60⟩, ⟨("Polyester"), 40⟩, ⟨(""), 25⟩]
        recycled_content_percentage := 0
        co2_footprint_kg := 12/5
        repair_score := ("N/A")
        recycling_instructions := ("Check local guidelines; disassemble by material where possible.")
        supply_chain_partners := []
        compliance_status := ("unknown")
        espr_article_references := [("ESPR_Article_1"), ("ESPR_Article_2"), ("ESPR_Article_3")] }
    ∧ (60 : ℚ) + 40 = 100 := by
  constructor
  · decide
  · norm_num

/-- Claim C3, counterexample: for the text
`"A 1% B 1% C 1% D 1% E 1% F 1% G 1% H 76%"` the raw matched percentages sum
to 83 ∈ [80, 120] and only 8 materials match, yet the returned rescaled
percentages sum to 99.97, which differs from 100 by 0.03 > 0.01. -/
theorem c3_counterexample :
    ((matchedMaterials cxText).map Material.percentage).sum = 83
    ∧ (matchedMaterials cxText).length = 8
    ∧ ((extract_materials cxText).map Material.percentage).sum = 9997/100
    ∧ ¬ |((extract_materials cxText).map Material.percentage).sum - 100| ≤ 1/100 := by
  refine ⟨by decide, by decide, by decide, by decide⟩

/-- Claim C4, counterexample: for an empty raw input the reference extractor
is seeded with the probe `"material recycled co2 repair recycling"`, which
matches all three built-in corpus entries, so `espr_article_references` is
the three-entry matched list and the two-entry default fallback is never
used. -/
theorem c4_counterexample :
    (standardize_product_data ("fresh-id") ([] : Raw)).toOption.map
      DigitalProductPassport.espr_article_references
      ≠ some [("ESPR_Article_1"), ("ESPR_Article_2")] := by
  decide

/-- Claim C4 (amended): for every raw input in which all five recognised
free-text keys are absent, and every fresh id, any DPP produced by
rule-based standardization has empty materials, zero recycled content,
zero CO2, and `espr_article_references = ["ESPR_Article_1",
"ESPR_Article_2", "ESPR_Article_3"]`: the empty blob is replaced by the
probe text, which matches every built-in corpus entry, so the extracted
three-entry reference list (not the two-entry default fallback) is used. -/
theorem c4_amended (fid : String) (raw : Raw) (dpp : DigitalProductPassport)
    (hfree : ∀ k ∈ freeTextKeys, rawGet raw k = Val.vNone)
    (h : standardize_product_data fid raw = .ok dpp) :
    dpp.materials_composition = []
    ∧ dpp.recycled_content_percentage = 0
    ∧ dpp.co2_footprint_kg = 0
    ∧ dpp.espr_article_references
        = [("ESPR_Article_1"), ("ESPR_Article_2"), ("ESPR_Article_3")] := by
  have hblob : blobOf raw = ("" : String) := by
    unfold blobOf
    have hnil : freeTextKeys.filterMap (fun k =>
        match rawGet raw k with | .vStr s => some s | _ => none) = [] := by
      rw [List.filterMap_eq_nil_iff]
      intro k hk
      rw [hfree k hk]
    rw [hnil]
    rfl
  obtain ⟨hm, hr, hc, hrefs, _⟩ := standardize_ok_shape h
  rw [hblob] at hm hr hc hrefs
  refine ⟨?_, ?_, ?_, ?_⟩
  · rw [hm]; decide
  · rw [hr]; decide
  · rw [hc]; decide
  · rw [hrefs]; decide

end ConcreteEvaluation

/-- Claim C2: the compliance status is `"non_compliant"` iff an issue
predicate holds (empty materials or empty recycling instructions), else
`"partially_compliant"` iff a warning predicate holds (zero recycled
content, zero CO2, or repair score `"N/A"`/empty), else `"compliant"`; and a
DPP with empty materials and empty recycling instructions yields status
`"non_compliant"` with exactly two issues. -/
theorem c2_compliance_status (dpp : DigitalProductPassport) :
    (((check_espr_compliance dpp).status = ("non_compliant")) ↔ issuePred dpp)
    ∧ (((check_espr_compliance dpp).status = ("partially_compliant")) ↔
        (¬ issuePred dpp ∧ warnPred dpp))
    ∧ (((check_espr_compliance dpp).status = ("compliant")) ↔
        (¬ issuePred dpp ∧ ¬ warnPred dpp))
    ∧ (dpp.materials_composition = [] → dpp.recycling_instructions = ("" : String) →
        (check_espr_compliance dpp).status = ("non_compliant")
        ∧ (check_espr_compliance dpp).issues.length = 2) := by
  by_cases h1 : dpp.materials_composition = []
  <;> by_cases h2 : dpp.recycling_instructions = ("" : String)
  <;> by_cases h3 : dpp.recycled_content_percentage = 0
  <;> by_cases h4 : dpp.co2_footprint_kg = 0
  <;> by_cases h5 : dpp.repair_score = ("N/A") ∨ dpp.repair_score = ("" : String)
  <;> simp_all [check_espr_compliance, issuePred, warnPred, List.isEmpty_iff]

/-- Claim C2, witness: the compliance scenario DPP (empty materials, empty
recycling instructions) is reported non-compliant with exactly two issues. -/
theorem c2_witness :
    (check_espr_compliance scenarioDpp).status = ("non_compliant")
    ∧ (check_espr_compliance scenarioDpp).issues.length = 2 :=
  (c2_compliance_status scenarioDpp).2.2.2 rfl rfl

/-- Claim C3 (amended): every extracted percentage lies in [0, 100]; and
when the raw matched percentages sum to a value in [80, 120] and at most 10
materials matched, the returned percentages sum to 100 within the
accumulated rounding tolerance 0.05 (each of the up-to-10 two-decimal
roundings can move the sum by up to 0.005, so the original 0.01 tolerance is
too tight, and with more than 10 matches the truncation to 10 entries can
lose arbitrary mass). -/
theorem c3_amended (t : String) :
    (∀ m ∈ extract_materials t, 0 ≤ m.percentage ∧ m.percentage ≤ 100)
    ∧ (80 ≤ ((matchedMaterials t).map Material.percentage).sum →
        ((matchedMaterials t).map Material.percentage).sum ≤ 120 →
        (matchedMaterials t).length ≤ 10 →
        |((extract_materials t).map Material.percentage).sum - 100| ≤ 1/20) :=
  ⟨fun _ hm => extract_materials_bounds hm,
   fun h80 h120 hlen => extract_sum_close t h80 h120 hlen⟩

/-- Claim C5: the rule-based insight score is 70 minus 10 for each
triggered penalty, clamped to [0, 100]; it is always one of 40, 50, 60, 70;
and a DPP with zero recycled content, zero CO2 and empty recycling
instructions scores exactly 40. -/
theorem c5_insight_score (dpp : DigitalProductPassport) :
    insight_score dpp
      = max 0 (min 100 (70 - (if dpp.recycled_content_percentage < 20 then 10 else 0)
          - (if dpp.co2_footprint_kg = 0 then 10 else 0)
          - (if dpp.recycling_instructions = ("" : String) then 10 else 0)))
    ∧ (insight_score dpp = 40 ∨ insight_score dpp = 50
        ∨ insight_score dpp = 60 ∨ insight_score dpp = 70)
    ∧ (dpp.recycled_content_percentage = 0 → dpp.co2_footprint_kg = 0 →
        dpp.recycling_instructions = ("" : String) → insight_score dpp = 40) := by
  refine ⟨?_, ?_, ?_⟩
  · unfold insight_score
    split_ifs <;> norm_num
  · unfold insight_score
    split_ifs <;> simp [max_def, min_def] <;> norm_num
  · intro h1 h2 h3
    have hlt : dpp.recycled_content_percentage < 20 := by rw [h1]; norm_num
    unfold insight_score
    simp [hlt, h2, h3, max_def, min_def]
    norm_num

/-- Claim C5, witness: the insight scenario DPP (zero recycled content,
zero CO2, empty recycling instructions) scores exactly 40. -/
theorem c5_witness : insight_score scenarioDpp = 40 :=
  (c5_insight_score scenarioDpp).2.2 rfl rfl rfl

/-- A question containing `"recycled"` also contains `"recycle"`. -/
theorem recycled_implies_recycle {l : List Char}
    (h : subL ("recycled").data l = true) : subL ("recycle").data l = true := by
  have he : ("recycled").data = ("recycle").data ++ ['d'] := by decide
  rw [he] at h
  exact subL_mono _ _ _ h

/-- The recycled-content branch of the Q&A router is unreachable: its guard
is only consulted after the `"recycle"` guard has failed, but any question
containing `"recycled"` contains `"recycle"`. -/
theorem qaBranch_ne_recycledB (question : String) :
    qaBranch question ≠ QaBr.recycledB := by
  unfold qaBranch
  by_cases h1 : subL ("recycle").data (lowerL question.data) = true
  · simp [h1]
  · by_cases h2 : (subL ("co2").data (lowerL question.data)
        || subL ("footprint").data (lowerL question.data)) = true
    · simp [h1, h2]
    · by_cases h3 : (subL ("materials").data (lowerL question.data)
          || subL ("composition").data (lowerL question.data)) = true
      · simp [h1, h2, h3]
      · by_cases h4 : subL ("recycled").data (lowerL question.data) = true
        · exact absurd (recycled_implies_recycle h4) h1
        · simp [h1, h2, h3, h4]

/-- The Q&A fallback renders exactly the branch selected by the keyword
router. -/
theorem qa_on_dpp_eq_render (dpp : DigitalProductPassport) (question : String) :
    qa_on_dpp dpp question = qaRender dpp (qaBranch question) := by
  unfold qa_on_dpp qaBranch
  by_cases h1 : subL ("recycle").data (lowerL question.data) = true
  · simp [h1, qaRender]
  · by_cases h2 : (subL ("co2").data (lowerL question.data)
        || subL ("footprint").data (lowerL question.data)) = true
    · simp [h1, h2, qaRender]
    · by_cases h3 : (subL ("materials").data (lowerL question.data)
          || subL ("composition").data (lowerL question.data)) = true
      · simp [h1, h2, h3, qaRender]
      · by_cases h4 : subL ("recycled").data (lowerL question.data) = true
        · simp [h1, h2, h3, h4, qaRender]
        · simp [h1, h2, h3, h4, qaRender]

/-- Claim C6: every DPP produced by rule-based standardization has an
`espr_article_references` list with no duplicates, sorted ascending in the
code-point lexicographic string order, of length at most 5 — both for
extracted references and for the two-entry default fallback. -/
theorem c6_refs_invariant (fid : String) (raw : Raw) (dpp : DigitalProductPassport)
    (h : standardize_product_data fid raw = .ok dpp) :
    dpp.espr_article_references.Nodup
    ∧ List.Sorted (· ≤ ·) dpp.espr_article_references
    ∧ dpp.espr_article_references.length ≤ 5 := by
  have hi := standardize_ok_invariants h
  exact ⟨hi.2.2.2.2.2.1, hi.2.2.2.2.2.2.1, hi.2.2.2.2.2.2.2⟩

/-- Claim C7 (amended): the rule-based Q&A fires exactly one branch — the
first matching keyword class of the lowercased question in priority order
(`"recycle"`; `"co2"`/`"footprint"`; `"materials"`/`"composition"`;
`"recycled"`; generic deflection) — but the recycled-content-percentage
branch never fires: any question containing `"recycled"` also contains
`"recycle"`, so the first branch shadows it. -/
theorem c7_amended (dpp : DigitalProductPassport) (question : String) :
    qa_on_dpp dpp question = qaRender dpp (qaBranch question)
    ∧ (subL ("recycle").data (lowerL question.data) = true →
        qa_on_dpp dpp question = qaRender dpp QaBr.recycleB)
    ∧ (subL ("recycle").data (lowerL question.data) = false →
        (subL ("co2").data (lowerL question.data)
          || subL ("footprint").data (lowerL question.data)) = true →
        qa_on_dpp dpp question = qaRender dpp QaBr.co2B)
    ∧ (subL ("recycle").data (lowerL question.data) = false →
        (subL ("co2").data (lowerL question.data)
          || subL ("footprint").data (lowerL question.data)) = false →
        (subL ("materials").data (lowerL question.data)
          || subL ("composition").data (lowerL question.data)) = true →
        qa_on_dpp dpp question = qaRender dpp QaBr.materialsB)
    ∧ (subL ("recycle").data (lowerL question.data) = false →
        (subL ("co2").data (lowerL question.data)
          || subL ("footprint").data (lowerL question.data)) = false →
        (subL ("materials").data (lowerL question.data)
          || subL ("composition").data (lowerL question.data)) = false →
        qa_on_dpp dpp question = qaRender dpp QaBr.otherB)
    ∧ qaBranch question ≠ QaBr.recycledB := by
  have hmain := qa_on_dpp_eq_render dpp question
  refine ⟨hmain, ?_, ?_, ?_, ?_, qaBranch_ne_recycledB question⟩
  · intro h1
    rw [hmain]
    unfold qaBranch
    simp [h1]
  · intro h1 h2
    rw [hmain]
    unfold qaBranch
    simp [h1, h2]
  · intro h1 h2 h3
    rw [hmain]
    unfold qaBranch
    simp [h1, h2, h3]
  · intro h1 h2 h3
    rw [hmain]
    unfold qaBranch
    simp only [h1, h2, h3, Bool.false_eq_true, if_false]
    by_cases h4 : subL ("recycled").data (lowerL question.data) = true
    · exact absurd (recycled_implies_recycle h4) (by simp [h1])
    · simp [h4]

/-- Claim C7, counterexample: there is no question for which the
recycled-content-percentage branch of the rule-based Q&A fires — the claim
that such a question exists is false, because `"recycled"` contains
`"recycle"` and the `"recycle"` branch is checked first. -/
theorem c7_counterexample : ¬ ∃ question : String, qaBranch question = QaBr.recycledB := by
  rintro ⟨question, hq⟩
  exact qaBranch_ne_recycledB question hq

/-- Claim C8: standardization surfaces an error iff the final assembled
record cannot be coerced to the DPP field types; and every well-typed raw
input (recognised scalar keys strings-or-absent, supply-chain keys
string-lists-or-absent) standardizes successfully to a DPP satisfying the
§3 invariants. -/
theorem c8_error_handling (fid : String) (raw : Raw) :
    ((∃ e, standardize_product_data fid raw = .error e) ↔ coerceOkB fid raw = false)
    ∧ (wellTypedB raw = true →
        ∃ dpp, standardize_product_data fid raw = .ok dpp ∧ dppInvariants dpp) := by
  refine ⟨standardize_error_iff fid raw, fun hw => ?_⟩
  obtain ⟨dpp, hdpp⟩ := standardize_ok_of_coerceOk (coerceOk_of_wellTyped fid hw)
  exact ⟨dpp, hdpp, standardize_ok_invariants hdpp⟩

/-- Membership in a conditional singleton. -/
theorem mem_ite_singleton {c : Prop} [Decidable c] {x a : String} :
    (x ∈ (if c then [a] else [])) ↔ c ∧ x = a := by
  split
  · rename_i hc
    simp [hc]
  · rename_i hc
    simp [hc]

/-- Per-entry agreement of the five duplicated conditionals of the source with
the keyword-table condition: an entry id is collected iff some keyword
occurs in both the input text and the entry text. -/
theorem refEntry_mem_iff (text : String) (e : String × String) (x : String) :
    (x ∈ (if refKeywords.any (fun kw => kwIn kw text) then
      (if kwIn ("material") text && kwIn ("material") e.2 then [e.1] else [])
        ++ (if kwIn ("recycled") text && kwIn ("recycled") e.2 then [e.1] else [])
        ++ (if kwIn ("co2") text && kwIn ("co2") e.2 then [e.1] else [])
        ++ (if kwIn ("repair") text && kwIn ("repair") e.2 then [e.1] else [])
        ++ (if kwIn ("recycling") text && kwIn ("recycling") e.2 then [e.1] else [])
      else []))
    ↔ (x ∈ (if refKeywords.any (fun kw => kwIn kw text && kwIn kw e.2) then [e.1] else [])) := by
  by_cases hg : refKeywords.any (fun kw => kwIn kw text) = true
  · rw [if_pos hg, mem_ite_singleton]
    simp only [List.mem_append, mem_ite_singleton, Bool.and_eq_true, refKeywords,
      List.any_cons, List.any_nil, Bool.or_eq_true, Bool.or_false]
    tauto
  · rw [if_neg hg, mem_ite_singleton]
    simp only [List.mem_nil_iff, false_iff, not_and]
    intro ha
    exfalso
    apply hg
    rw [List.any_eq_true] at ha ⊢
    obtain ⟨kw, hkw, hc⟩ := ha
    rw [Bool.and_eq_true] at hc
    exact ⟨kw, hkw, hc.1⟩

/-- Claim C9: the five duplicated per-keyword conditionals of the reference
extractor are behaviorally identical to a single data-driven loop over the
keyword table — for every corpus and input text both formulations produce
the same deduplicated, sorted, capped-at-5 list of entry ids. -/
theorem c9_refactor_equiv (corpus : List (String × String)) (text : String) :
    find_references corpus text = find_references_loop corpus text := by
  unfold find_references find_references_loop
  have hmem : ∀ x : String,
      x ∈ (corpus.map fun e =>
        if refKeywords.any (fun kw => kwIn kw text) then
          (if kwIn ("material") text && kwIn ("material") e.2 then [e.1] else [])
            ++ (if kwIn ("recycled") text && kwIn ("recycled") e.2 then [e.1] else [])
            ++ (if kwIn ("co2") text && kwIn ("co2") e.2 then [e.1] else [])
            ++ (if kwIn ("repair") text && kwIn ("repair") e.2 then [e.1] else [])
            ++ (if kwIn ("recycling") text && kwIn ("recycling") e.2 then [e.1] else [])
        else []).flatten
      ↔ x ∈ (corpus.map fun e =>
          if refKeywords.any (fun kw => kwIn kw text && kwIn kw e.2) then [e.1] else []).flatten := by
    intro x
    simp only [List.mem_flatten, List.mem_map]
    constructor
    · rintro ⟨l, ⟨e, he, rfl⟩, hx⟩
      exact ⟨_, ⟨e, he, rfl⟩, (refEntry_mem_iff text e x).mp hx⟩
    · rintro ⟨l, ⟨e, he, rfl⟩, hx⟩
      exact ⟨_, ⟨e, he, rfl⟩, (refEntry_mem_iff text e x).mpr hx⟩
  dsimp only
  rw [dedupSort_congr hmem]

/-- Claim C10: a defaulted key that is present but falsy is treated exactly
like an absent key (`or`-fallback semantics); in particular the raw input
with empty-string `product_name`, `product_id`, `manufacturer`,
`recycling_instructions` and empty `supply_chain_partners` standardizes to
the same DPP as the empty raw input; consequently no DPP produced by the
rule-based path has empty recycling instructions, so the
`"Recycling instructions required."` issue can never fire on such a DPP. -/
theorem c10_falsy_defaults :
    (∀ (v d : Val), truthy v = false → pyOr v d = d)
    ∧ (∀ fid : String, standardize_product_data fid falsyRaw
        = standardize_product_data fid ([] : Raw))
    ∧ (∀ (fid : String) (raw : Raw) (dpp : DigitalProductPassport),
        standardize_product_data fid raw = .ok dpp →
        ¬ dpp.recycling_instructions = ("" : String)
        ∧ ("Recycling instructions required.") ∉ (check_espr_compliance dpp).issues) := by
  refine ⟨fun _ d h => pyOr_falsy d h, fun fid => rfl, fun fid raw dpp h => ?_⟩
  have hne := standardize_ok_instructions_ne h
  refine ⟨hne, ?_⟩
  unfold check_espr_compliance
  simp only [List.mem_append]
  rintro (hmem | hmem)
  · rw [mem_ite_singleton] at hmem
    exact absurd hmem.2 (by decide)
  · rw [mem_ite_singleton] at hmem
    exact hne hmem.1

section ConcreteWitnesses

attribute [local semireducible] Rat.add Rat.mul Rat.inv Rat.sub

/-- Claim C3, witness: for `"Cotton 60% Polyester 40%"` the raw sum is 100
∈ [80, 120] with 2 ≤ 10 matches, and the returned percentages sum to 100
within the tolerance. -/
theorem c3_witness :
    |((extract_materials ("Cotton 60% Polyester 40%")).map Material.percentage).sum - 100|
      ≤ 1/20 :=
  (c3_amended ("Cotton 60% Polyester 40%")).2 (by decide) (by decide) (by decide)

/-- Claim C6, witness: the empty raw input standardizes to a DPP whose
three-entry reference list is duplicate-free, sorted and within the cap. -/
theorem c6_witness :
    c4dpp.espr_article_references.Nodup
    ∧ List.Sorted (· ≤ ·) c4dpp.espr_article_references
    ∧ c4dpp.espr_article_references.length ≤ 5 :=
  c6_refs_invariant ("fresh-id") ([] : Raw) c4dpp (except_ok_of_toOption (by decide))

/-- Claim C8, witness: a concrete well-typed raw input standardizes
successfully to an invariant-satisfying DPP. -/
theorem c8_witness :
    ∃ dpp, standardize_product_data ("w1") [(("product_name"), .vStr ("Tee"))] = .ok dpp
      ∧ dppInvariants dpp :=
  (c8_error_handling ("w1") [(("product_name"), .vStr ("Tee"))]).2 (by decide)

/-- Claim C4, witness: the empty raw input (all free-text keys absent)
standardizes with fresh id `"fresh-id"` to a DPP with empty materials, zero
recycled content, zero CO2, and the three-entry reference list. -/
theorem c4_witness :
    c4dpp.materials_composition = []
    ∧ c4dpp.recycled_content_percentage = 0
    ∧ c4dpp.co2_footprint_kg = 0
    ∧ c4dpp.espr_article_references
        = [("ESPR_Article_1"), ("ESPR_Article_2"), ("ESPR_Article_3")] :=
  c4_amended ("fresh-id") ([] : Raw) c4dpp (fun _ _ => rfl)
    (except_ok_of_toOption (by decide))

/-- Claim C7, witness: for the question `"what is the co2 footprint"` the
CO2 branch is the one that fires. -/
theorem c7_witness :
    qa_on_dpp scenarioDpp ("what is the co2 footprint")
      = qaRender scenarioDpp QaBr.co2B :=
  (c7_amended scenarioDpp ("what is the co2 footprint")).2.2.1 (by decide) (by decide)

/-- Claim C10, witness: a falsy `product_name` falls through to its
default, and the DPP produced from the empty raw input has nonempty
recycling instructions and no recycling-instructions issue. -/
theorem c10_witness :
    pyOr (.vStr ("")) (.vStr ("Unknown Product")) = .vStr ("Unknown Product")
    ∧ (¬ c4dpp.recycling_instructions = ("" : String)
        ∧ ("Recycling instructions required.") ∉ (check_espr_compliance c4dpp).issues) :=
  ⟨c10_falsy_defaults.1 _ _ (by decide),
   c10_falsy_defaults.2.2 ("fresh-id") ([] : Raw) c4dpp (except_ok_of_toOption (by decide))⟩

end ConcreteWitnesses

end DPPComply
